import Mathlib

/-!
Shallow embedding of the request-handling surface of the hono-react-boilerplate
repository: the health route (`apps/api/routes/health/index.ts`), the ai route
(`apps/api/routes/ai/index.ts`), and the shared todo validation schema
(`todoSchema` with `zValidator`, as declared in the repository's guidelines
document), together with spec-modelled fragments of the data-access layer
(delete counts, transactions) whose implementation lives outside the shown
sources.
-/

/-- A JSON value, as carried by request payloads, table rows and response
bodies.  Objects are represented as association lists of fields. -/
inductive Json where
  | null : Json
  | str (s : String) : Json
  | bool (b : Bool) : Json
  | num (n : Int) : Json
  | arr (items : List Json) : Json
  | obj (fields : List (String × Json)) : Json
  deriving Repr

/-- A table row: a flat JSON object (association list of column values). -/
abbrev Row := List (String × Json)

/-- Look up a field of a JSON object (first occurrence wins, as in a parsed
JSON object with distinct keys). -/
def lookupField (p : List (String × Json)) (k : String) : Option Json :=
  match p.find? (fun kv => kv.1 == k) with
  | none => none
  | some kv => some kv.2

/-- The typed value produced by `todoSchema`:
`z.object({ title: z.string().min(1), completed: z.boolean().default(false) })`. -/
structure Todo where
  title : String
  completed : Bool
  deriving Repr, DecidableEq

/-- `title: z.string().min(1)` — the field is required, must be a string, and
must have length at least 1.  On success returns the parsed string, on failure
the name of the offending field (as reported in the Zod issue path). -/
def checkTitle (p : List (String × Json)) : Except String String :=
  match lookupField p "title" with
  | some (Json.str s) => if 1 ≤ s.length then Except.ok s else Except.error "title"
  | _ => Except.error "title"

/-- `completed: z.boolean().default(false)` — an absent field is replaced by
the default `false`; a present field must be a boolean. -/
def checkCompleted (p : List (String × Json)) : Except String Bool :=
  match lookupField p "completed" with
  | none => Except.ok false
  | some (Json.bool b) => Except.ok b
  | some _ => Except.error "completed"

/-- `todoSchema.safeParse(payload)`: Zod object parsing checks every field and
accumulates one issue per offending field, so a failure enumerates all
violating fields, not only the first. -/
def validateTodo (p : List (String × Json)) : Except (List String) Todo :=
  match checkTitle p, checkCompleted p with
  | Except.ok t, Except.ok c => Except.ok ⟨t, c⟩
  | Except.error e, Except.ok _ => Except.error [e]
  | Except.ok _, Except.error e => Except.error [e]
  | Except.error e1, Except.error e2 => Except.error [e1, e2]

/-- The `title` constraint holds of the raw payload: the field is present, a
string, and nonempty. -/
def titleOkB (p : List (String × Json)) : Bool :=
  match lookupField p "title" with
  | some (Json.str s) => decide (1 ≤ s.length)
  | _ => false

/-- The `completed` constraint holds of the raw payload: the field is either
absent (the default applies) or a boolean. -/
def completedOkB (p : List (String × Json)) : Bool :=
  match lookupField p "completed" with
  | none => true
  | some (Json.bool _) => true
  | some _ => false

/-- The response produced by `todoRoutes`'s POST handler, which is mounted
behind `zValidator('json', todoSchema)`: on a schema violation the validator
short-circuits with a validation failure enumerating the offending fields; on
success the handler body runs and answers `{ success: true }`. -/
inductive TodoResponse where
  | success : TodoResponse
  | validationFailure (fields : List String) : TodoResponse
  deriving Repr, DecidableEq

/-- `POST /todos` as registered by
`new Hono().post('/', zValidator('json', todoSchema), handler)`. -/
def postTodos (p : List (String × Json)) : TodoResponse :=
  match validateTodo p with
  | Except.error es => TodoResponse.validationFailure es
  | Except.ok _ => TodoResponse.success

/-- The tables of the persisted schema that the shown routes touch. -/
inductive Table where
  | verification : Table
  | user : Table
  | todo : Table
  deriving Repr, DecidableEq

/-- A query issued against the data-access layer (`db`). -/
inductive DbQuery where
  | select (t : Table) : DbQuery
  | insert (t : Table) : DbQuery
  | update (t : Table) : DbQuery
  | delete (t : Table) : DbQuery
  deriving Repr, DecidableEq

/-- Whether a query is a read-only `select`. -/
def DbQuery.isSelect : DbQuery → Bool
  | DbQuery.select _ => true
  | _ => false

/-- The persisted store: the rows of each table. -/
structure Store where
  verification : List Row
  user : List Row
  todo : List Row
  deriving Repr

/-- `db.select().from(t)`: the ordered rows of table `t`; an empty list when
none match (not an error). -/
def dbSelect (s : Store) : Table → List Row
  | Table.verification => s.verification
  | Table.user => s.user
  | Table.todo => s.todo

/-- An HTTP response: status code and JSON body, as produced by `c.json`. -/
structure HttpResponse where
  status : Nat
  body : Json
  deriving Repr

/-- Everything one invocation of the health handler produces: the HTTP
response, the `console.log` output (in order), the queries issued against the
data layer (in order), and the store as the handler leaves it. -/
structure HealthResult where
  response : HttpResponse
  log : List (List Row)
  queries : List DbQuery
  store : Store
  deriving Repr

/-- The `GET /health` handler body from `apps/api/routes/health/index.ts`:
```
const data = await db.select().from(verification);
const userData = await db.select().from(user);
console.log(data);
console.log(userData);
return c.json({ message: 'API is healthy' });
```
It reads both tables, logs the rows, and answers a fixed 200 body. -/
def healthHandler (s : Store) : HealthResult :=
  let data := dbSelect s Table.verification
  let userData := dbSelect s Table.user
  { response := ⟨200, Json.obj [("message", Json.str "API is healthy")]⟩
    log := [data, userData]
    queries := [DbQuery.select Table.verification, DbQuery.select Table.user]
    store := s }

/-- An incoming HTTP request as seen by the routes: an optional session token
(the cookie Better Auth would read), plus arbitrary parameters, headers and
body.  None of the shown routes mounts auth middleware, so the token is never
consulted. -/
structure Request where
  session : Option String
  params : List (String × String)
  headers : List (String × String)
  body : Option Json
  deriving Repr

/-- Dispatch of `GET /health` through `healthRoutes = new Hono().get('/', h)`:
the route registers the handler with NO middleware in front of it, so every
request — with or without a session — goes straight to the handler.  Returns
the response together with the data-layer queries the dispatch caused. -/
def processHealth (_req : Request) (s : Store) : HttpResponse × List DbQuery :=
  let r := healthHandler s
  (r.response, r.queries)

/-- The `GET /ai` handler from `apps/api/routes/ai/index.ts`, parametrised by
the text-generation model (`generateText` with `openai('gpt-4o-mini')`),
modelled as a function from prompt to generated text:
```
const { text } = await generateText({ model: ..., prompt: "What's the weather like today?" });
return c.json({ text });
```
Returns the prompt actually sent to the model together with the response. -/
def aiHandler (_req : Request) (model : String → String) : String × HttpResponse :=
  let prompt := "What\x27s the weather like today?"
  let text := model prompt
  (prompt, ⟨200, Json.obj [("text", Json.str text)]⟩)

/-- Modelled from the spec: the data-access layer itself (Drizzle ORM) is not
among the shown sources; `delete(entity, filter)` is modelled from the spec's
words — it removes the matching records and returns the count of affected
records, where zero is a valid, non-error result. -/
def deleteWhere (rows : List Row) (filter : Row → Bool) : Nat × List Row :=
  ((rows.filter filter).length, rows.filter (fun r => ! filter r))

/-- One step of a multi-step write inside a transaction: it either produces
the next store state or fails (for example with a constraint violation). -/
abbrev TxStep := Store → Except String Store

/-- Runs the steps of a transaction body in order over the store, stopping at
the first failure. -/
def applySteps (s : Store) : List TxStep → Except String Store
  | [] => Except.ok s
  | step :: rest =>
    match step s with
    | Except.error e => Except.error e
    | Except.ok s2 => applySteps s2 rest

/-- Modelled from the spec: the transaction wrapper (`db.transaction`) is not
among the shown sources; it is modelled from the spec's words — all writes
inside commit together, and a failure inside the body rolls back every prior
write in that scope, leaving the persisted state as it was before the
transaction began. -/
def runTransaction (init : Store) (steps : List TxStep) : Store :=
  match applySteps init steps with
  | Except.ok s => s
  | Except.error _ => init

/-- Case analysis of the `title` field check: either it succeeds with a
nonempty string and the raw constraint holds, or it fails with the issue
naming `title` and the raw constraint fails. -/
theorem checkTitle_cases (p : List (String × Json)) :
    (∃ s, checkTitle p = Except.ok s ∧ titleOkB p = true ∧ 1 ≤ s.length) ∨
    (checkTitle p = Except.error "title" ∧ titleOkB p = false) := by
  cases h : lookupField p "title" with
  | none => right; simp [checkTitle, titleOkB, h]
  | some v =>
    cases v with
    | str s =>
      by_cases hl : 1 ≤ s.length
      · exact Or.inl ⟨s, by simp [checkTitle, h, hl], by simp [titleOkB, h, hl], hl⟩
      · right; simp [checkTitle, titleOkB, h, hl]
    | null => right; simp [checkTitle, titleOkB, h]
    | bool b => right; simp [checkTitle, titleOkB, h]
    | num n => right; simp [checkTitle, titleOkB, h]
    | arr i => right; simp [checkTitle, titleOkB, h]
    | obj f => right; simp [checkTitle, titleOkB, h]

/-- Case analysis of the `completed` field check: either it succeeds (with the
default when the field is absent) and the raw constraint holds, or it fails
with the issue naming `completed` and the raw constraint fails. -/
theorem checkCompleted_cases (p : List (String × Json)) :
    (∃ b, checkCompleted p = Except.ok b ∧ completedOkB p = true) ∨
    (checkCompleted p = Except.error "completed" ∧ completedOkB p = false) := by
  cases h : lookupField p "completed" with
  | none => exact Or.inl ⟨false, by simp [checkCompleted, h], by simp [completedOkB, h]⟩
  | some v =>
    cases v with
    | bool b => exact Or.inl ⟨b, by simp [checkCompleted, h], by simp [completedOkB, h]⟩
    | null => right; simp [checkCompleted, completedOkB, h]
    | str s => right; simp [checkCompleted, completedOkB, h]
    | num n => right; simp [checkCompleted, completedOkB, h]
    | arr i => right; simp [checkCompleted, completedOkB, h]
    | obj f => right; simp [checkCompleted, completedOkB, h]

/-- C2: for every raw payload, `validateTodo` either returns a typed value
satisfying the schema's constraints (its title has length at least 1), or
fails with an error list that names every violating field — `title` whenever
the title constraint fails and `completed` whenever the completed constraint
fails, not only the first; and a payload satisfying both constraints never
fails validation. -/
theorem validateTodo_spec (p : List (String × Json)) :
    ((∃ t, validateTodo p = Except.ok t ∧ 1 ≤ t.title.length) ∨
     (∃ es, validateTodo p = Except.error es ∧
        (titleOkB p = false → "title" ∈ es) ∧
        (completedOkB p = false → "completed" ∈ es))) ∧
    (titleOkB p = true → completedOkB p = true → ∃ t, validateTodo p = Except.ok t) := by
  rcases checkTitle_cases p with ⟨s, hT, hTb, hs⟩ | ⟨hT, hTb⟩ <;>
    rcases checkCompleted_cases p with ⟨b, hC, hCb⟩ | ⟨hC, hCb⟩
  · exact ⟨Or.inl ⟨⟨s, b⟩, by simp [validateTodo, hT, hC], hs⟩,
      fun _ _ => ⟨⟨s, b⟩, by simp [validateTodo, hT, hC]⟩⟩
  · refine ⟨Or.inr ⟨["completed"], by simp [validateTodo, hT, hC], ?_, ?_⟩, ?_⟩
    · intro hfalse; rw [hTb] at hfalse; exact absurd hfalse (by simp)
    · intro _; simp
    · intro _ htrue; rw [hCb] at htrue; exact absurd htrue (by simp)
  · refine ⟨Or.inr ⟨["title"], by simp [validateTodo, hT, hC], ?_, ?_⟩, ?_⟩
    · intro _; simp
    · intro hfalse; rw [hCb] at hfalse; exact absurd hfalse (by simp)
    · intro htrue _; rw [hTb] at htrue; exact absurd htrue (by simp)
  · refine ⟨Or.inr ⟨["title", "completed"], by simp [validateTodo, hT, hC], ?_, ?_⟩, ?_⟩
    · intro _; simp
    · intro _; simp
    · intro htrue _; rw [hTb] at htrue; exact absurd htrue (by simp)

/-- Witness for C2: the concrete valid payload with only a title parses. -/
theorem validateTodo_spec_witness :
    ∃ t, validateTodo [("title", Json.str "hi")] = Except.ok t :=
  (validateTodo_spec [("title", Json.str "hi")]).2 (by decide) (by decide)

/-- C6: `POST /todos` with the payload with an empty `title` (which violates
the min-length-1 constraint) is a validation failure whose issue list names
the field `title`. -/
theorem postTodos_empty_title :
    ∃ es, postTodos [("title", Json.str "")] = TodoResponse.validationFailure es ∧
      "title" ∈ es :=
  ⟨["title"], rfl, by decide⟩

/-- C7: for every payload in which the optional `completed` field is absent
and the `title` constraint holds, validation succeeds and the returned value
carries the declared default `completed = false`. -/
theorem validateTodo_default_absent (p : List (String × Json))
    (habs : lookupField p "completed" = none) (ht : titleOkB p = true) :
    ∃ t, validateTodo p = Except.ok t ∧ t.completed = false := by
  rcases checkTitle_cases p with ⟨s, hT, _, _⟩ | ⟨_, hTb⟩
  · have hC : checkCompleted p = Except.ok false := by simp [checkCompleted, habs]
    exact ⟨⟨s, false⟩, by simp [validateTodo, hT, hC], rfl⟩
  · rw [ht] at hTb; exact absurd hTb (by simp)

/-- Witness for C7: a payload with a nonempty title and no `completed` field
parses, and the result carries the default `completed = false`. -/
theorem validateTodo_default_absent_witness :
    ∃ t, validateTodo [("title", Json.str "x")] = Except.ok t ∧ t.completed = false :=
  validateTodo_default_absent [("title", Json.str "x")] rfl (by decide)

/-- C3: for every reachable store, `GET /health` answers status 200 with the
fixed liveness body, and the response is the same whatever the rows of the
`user` and `verification` tables contain. -/
theorem health_liveness (s : Store) :
    (healthHandler s).response.status = 200 ∧
    (healthHandler s).response.body = Json.obj [("message", Json.str "API is healthy")] ∧
    ∀ s2 : Store, (healthHandler s).response = (healthHandler s2).response :=
  ⟨rfl, rfl, fun _ => rfl⟩

/-- C9: the health handler leaves the persisted store unchanged and every
query it issues is a read-only `select` (no insert, update or delete). -/
theorem health_frame (s : Store) :
    (healthHandler s).store = s ∧
    ((healthHandler s).queries).all DbQuery.isSelect = true :=
  ⟨rfl, rfl⟩

/-- C10: no data from the rows read by the health handler reaches the HTTP
response — the response is identical for any two stores and its body is
exactly the fixed message — while the rows themselves go only to the
server-side log, which receives exactly the two row lists. -/
theorem health_no_row_leak (s1 s2 : Store) :
    (healthHandler s1).response = (healthHandler s2).response ∧
    (healthHandler s1).response.body = Json.obj [("message", Json.str "API is healthy")] ∧
    (healthHandler s1).log = [s1.verification, s1.user] :=
  ⟨rfl, rfl, rfl⟩

/-- C1 (evaluation at the failing input): a `GET /health` request with no
session at all is not rejected — dispatch reaches the handler, the data layer
is invoked with selects on `verification` and `user`, and the response is 200
rather than Unauthenticated. -/
theorem health_unauthenticated_reaches_data_layer :
    (processHealth ⟨none, [], [], none⟩ ⟨[], [], []⟩).1.status = 200 ∧
    (processHealth ⟨none, [], [], none⟩ ⟨[], [], []⟩).2
      = [DbQuery.select Table.verification, DbQuery.select Table.user] ∧
    (processHealth ⟨none, [], [], none⟩ ⟨[], [], []⟩).2 ≠ [] :=
  ⟨rfl, rfl, by decide⟩

/-- C8: the ai handler ignores all request input — any two requests, whatever
their session, parameters, headers or bodies, produce the identical model
call and response — the prompt sent to the model is the fixed string, and the
response body is the object carrying the model's reply under `text`. -/
theorem ai_fixed_prompt (r1 r2 : Request) (model : String → String) :
    (aiHandler r1 model).1 = "What\x27s the weather like today?" ∧
    aiHandler r1 model = aiHandler r2 model ∧
    (aiHandler r1 model).2.status = 200 ∧
    (aiHandler r1 model).2.body
      = Json.obj [("text", Json.str (model "What\x27s the weather like today?"))] :=
  ⟨rfl, rfl, rfl, rfl⟩

/-- C5: `delete` returns the count of records matched by the filter (so zero
matches is an ordinary zero count, not an error), and repeating the same
delete on the store it produced affects zero records the second time. -/
theorem delete_idempotent (rows : List Row) (filter : Row → Bool) :
    (deleteWhere rows filter).1 = (rows.filter filter).length ∧
    (deleteWhere (deleteWhere rows filter).2 filter).1 = 0 := by
  refine ⟨rfl, ?_⟩
  simp only [deleteWhere, List.filter_filter, List.length_eq_zero]
  induction rows with
  | nil => rfl
  | cons r rest ih =>
    by_cases h : filter r = true <;> simp [List.filter, h, ih]

/-- C4: transactions are all-or-nothing — running a transaction either leaves
the store at the state reached by applying every step in order (commit), or,
when some step fails, at exactly the state from before the transaction began
(every prior write rolled back). -/
theorem transaction_atomic (init : Store) (steps : List TxStep) :
    (∃ s, applySteps init steps = Except.ok s ∧ runTransaction init steps = s) ∨
    ((∃ e, applySteps init steps = Except.error e) ∧ runTransaction init steps = init) := by
  cases h : applySteps init steps with
  | ok s => exact Or.inl ⟨s, rfl, by simp [runTransaction, h]⟩
  | error e => exact Or.inr ⟨⟨e, rfl⟩, by simp [runTransaction, h]⟩
